import Mathlib

/-!
Shallow embedding of the fedramp controls-comparison program.

Source files embedded here:
- `src/control_id.rs`: the `ControlID` type, its `Display` rendering and its
  `FromStr` parser (built on the regex
  `(?<subject>\w+)-(?<number>\d+)(?:\s+\((?<subnumber>\d+)\))?`).
- `src/main.rs`: `Baselines`, `Parameters` (with `flatten`), `Control`
  (with `distinct_parameters` and `without_baseline`), `Controls`
  (with `parse` and `without_baseline`), `merge_controls` and the
  per-control body of `tabulate_controls`.

Modelling conventions:
- Rust `String` is Lean `String`; character classes (`\w`, `\d`, `\s`) are
  modelled over the ASCII subset actually used by the data.
- Rust `u8` values are `Nat`s; the `parse::<u8>().unwrap()` calls in
  `control_id.rs` panic for values above 255, modelled by an explicit
  `panicked` outcome.  Every other panic path (the `.unwrap()` in
  `merge_controls`) is modelled by `Option` with `none` for the panic.
- `HashMap<ControlID, Control>` is an association list `List (ControlID ×
  Control)`; map semantics (insert-overwrites, lookup) are order-independent,
  matching the unspecified iteration order of the Rust hash containers.
- `EnumMap<Baselines, Option<Parameters>>` is the three-field structure
  `ParamMap`, whose `values` list is in declaration order High, Moderate, Low,
  exactly like `EnumMap::values` / `Baselines::iter()`.
- `Vec::sort` on `Option<Parameters>` (derived `Ord`, lexicographic) is
  modelled by an insertion sort over the corresponding comparator; only the
  multiset of elements matters to the properties proved below.
-/

namespace Fedramp

/-- ASCII model of the regex character class `\s` (whitespace), also used for
`str::trim`. -/
def isSpaceChar (c : Char) : Bool :=
  c == ' ' || c == '\t' || c == '\n' || c == '\r'

/-- ASCII model of the regex character class `\w` (word characters). -/
def isWordChar (c : Char) : Bool :=
  c.isAlphanum || c == '_'

/-- Model of the regex character class `\d` (decimal digits). -/
def isDigitChar (c : Char) : Bool :=
  c.isDigit

/-- Greedy maximal-run splitter: the longest prefix of characters satisfying
`p`, and the rest.  This is how the regex engine consumes `\w+`, `\d+` and
`\s+` in the patterns of this program (no backtracking into a run is ever
possible, because the character that follows each run in the pattern can
never satisfy the run's class). -/
def spanP (p : Char → Bool) : List Char → List Char × List Char
  | [] => ([], [])
  | c :: cs =>
    if p c then
      let r := spanP p cs
      (c :: r.1, r.2)
    else ([], c :: cs)

/-- `regex!(r"\s+").replace_all(s, " ")`: collapse every maximal whitespace
run to a single space.  The boolean argument records whether the previous
character was inside a whitespace run. -/
def collapseWsGo : List Char → Bool → List Char
  | [], _ => []
  | c :: cs, inRun =>
    if isSpaceChar c then
      if inRun then collapseWsGo cs true
      else ' ' :: collapseWsGo cs true
    else c :: collapseWsGo cs false

/-- Whitespace collapsing on strings (`ws.replace_all(s, " ")` in
`Parameters::flatten` and `Controls::parse`). -/
def collapseWsStr (s : String) : String :=
  ⟨collapseWsGo s.data false⟩

/-- `str::trim`: drop leading and trailing whitespace. -/
def trimChars (l : List Char) : List Char :=
  ((l.dropWhile isSpaceChar).reverse.dropWhile isSpaceChar).reverse

/-- `str::trim` on strings. -/
def trimS (s : String) : String :=
  ⟨trimChars s.data⟩

/-- `str::starts_with` for the header-routing tests. -/
def startsWithS (s pat : String) : Bool :=
  pat.data.isPrefixOf s.data

/-- Substring search over character lists (`str::contains`). -/
def containsSeq (pat : List Char) : List Char → Bool
  | [] => pat.isEmpty
  | c :: cs => pat.isPrefixOf (c :: cs) || containsSeq pat cs

/-- `str::contains` for the header-routing tests. -/
def containsS (s pat : String) : Bool :=
  containsSeq pat.data s.data

/-! ## control_id.rs -/

/-- `ControlID` from `src/control_id.rs`: `subject: String, number: u8,
subnumber: u8`.  The `u8` fields are `Nat`s; the parser below refuses (by
panicking) to build values above 255, exactly like `parse::<u8>().unwrap()`. -/
structure ControlID where
  subject : String
  number : Nat
  subnumber : Nat
deriving DecidableEq

/-- `ControlID::default()` (derived `Default`). -/
def ControlID.default : ControlID :=
  ⟨"", 0, 0⟩

/-- `ControlID::is_empty`: `self.subject.is_empty() || self.number == 0`. -/
def ControlID.is_empty (c : ControlID) : Bool :=
  c.subject.isEmpty || c.number == 0

/-- `impl fmt::Display for ControlID`: `"{subject}-{number} ({subnumber})"`
when `subnumber > 0`, else `"{subject}-{number}"`. -/
def ControlID.toDisplay (c : ControlID) : String :=
  if 0 < c.subnumber then
    c.subject ++ "-" ++ Nat.repr c.number ++ " (" ++ Nat.repr c.subnumber ++ ")"
  else
    c.subject ++ "-" ++ Nat.repr c.number

/-- The capture groups of one match of
`(?<subject>\w+)-(?<number>\d+)(?:\s+\((?<subnumber>\d+)\))?`. -/
structure RegexMatch where
  subject : List Char
  number : List Char
  subnumber : Option (List Char)
deriving DecidableEq

/-- Attempt the optional group `(?:\s+\((?<subnumber>\d+)\))?` at the point
just after the `number` digits. -/
def matchSubnum (l : List Char) : Option (List Char) :=
  if (spanP isSpaceChar l).1.isEmpty then none
  else
    match (spanP isSpaceChar l).2 with
    | '(' :: r2 =>
      if (spanP isDigitChar r2).1.isEmpty then none
      else
        match (spanP isDigitChar r2).2 with
        | ')' :: _ => some (spanP isDigitChar r2).1
        | _ => none
    | _ => none

/-- Attempt the identifier pattern at one start position. -/
def matchIdAt (l : List Char) : Option RegexMatch :=
  if (spanP isWordChar l).1.isEmpty then none
  else
    match (spanP isWordChar l).2 with
    | '-' :: r2 =>
      if (spanP isDigitChar r2).1.isEmpty then none
      else some ⟨(spanP isWordChar l).1, (spanP isDigitChar r2).1, matchSubnum (spanP isDigitChar r2).2⟩
    | _ => none

/-- `Regex::captures`: unanchored leftmost match — try every start position
from the left. -/
def findIdMatch : List Char → Option RegexMatch
  | [] => none
  | c :: cs =>
    match matchIdAt (c :: cs) with
    | some m => some m
    | none => findIdMatch cs

/-- Numeric value of a digit-character group (`str::parse` on an all-digit
string, before the range check). -/
def digitsToNat (l : List Char) : Nat :=
  l.foldl (fun a c => a * 10 + (c.toNat - 48)) 0

/-- Outcome of a Rust function that can return `Ok`, return `Err`, or panic. -/
inductive ParseResult (α : Type) where
  | ok : α → ParseResult α
  | err : ParseResult α
  | panicked : ParseResult α
deriving DecidableEq

/-- `impl FromStr for ControlID`: find the leftmost match of the identifier
pattern (else `Err(ParseControlIDErr)`); parse the `number` and `subnumber`
digit groups with `parse::<u8>().unwrap()`, which panics when the value
exceeds 255; a missing subnumber group defaults to 0. -/
def ControlID.fromStr (s : String) : ParseResult ControlID :=
  match findIdMatch s.data with
  | none => .err
  | some m =>
    if 255 < digitsToNat m.number then .panicked
    else
      match m.subnumber with
      | some d =>
        if 255 < digitsToNat d then .panicked
        else .ok ⟨String.mk m.subject, digitsToNat m.number, digitsToNat d⟩
      | none => .ok ⟨String.mk m.subject, digitsToNat m.number, 0⟩

/-! ## main.rs: data model -/

/-- `enum Baselines { High, Moderate, Low }`. -/
inductive Baselines where
  | High : Baselines
  | Moderate : Baselines
  | Low : Baselines
deriving DecidableEq

/-- `Baselines::short`. -/
def Baselines.short : Baselines → String
  | .High => "High"
  | .Moderate => "Moderate"
  | .Low => "Low"

/-- `Baselines::iter()` order (also `EnumMap` value order). -/
def Baselines.iterOrder : List Baselines :=
  [.High, .Moderate, .Low]

/-- `struct Parameters { assignment: String, additional: String }`. -/
structure Parameters where
  assignment : String
  additional : String
deriving DecidableEq

/-- `Parameters::default()`. -/
def Parameters.default : Parameters :=
  ⟨"", ""⟩

/-- `Parameters::flatten`: collapse every whitespace run to one space in both
fields (no trimming). -/
def Parameters.flatten (p : Parameters) : Parameters :=
  ⟨collapseWsStr p.assignment, collapseWsStr p.additional⟩

/-- `EnumMap<Baselines, Option<Parameters>>`: one slot per baseline. -/
structure ParamMap where
  high : Option Parameters
  moderate : Option Parameters
  low : Option Parameters
deriving DecidableEq

/-- The all-`None` map (`EnumMap::from_fn(|_| None)`). -/
def ParamMap.empty : ParamMap :=
  ⟨none, none, none⟩

/-- Slot read (`map[level]`). -/
def ParamMap.get (m : ParamMap) : Baselines → Option Parameters
  | .High => m.high
  | .Moderate => m.moderate
  | .Low => m.low

/-- Slot write (`map[level] = v`). -/
def ParamMap.set (m : ParamMap) : Baselines → Option Parameters → ParamMap
  | .High, v => ⟨v, m.moderate, m.low⟩
  | .Moderate, v => ⟨m.high, v, m.low⟩
  | .Low, v => ⟨m.high, m.moderate, v⟩

/-- `EnumMap::values()`: the slots in declaration order. -/
def ParamMap.values (m : ParamMap) : List (Option Parameters) :=
  [m.high, m.moderate, m.low]

/-- `EnumMap::len()`: the number of keys (always 3 for `Baselines`). -/
def ParamMap.len : Nat := 3

/-- `struct Control` from `src/main.rs`. -/
structure Control where
  id : ControlID
  name : String
  description : String
  discussion : String
  parameters : ParamMap
deriving DecidableEq

/-- `Control::default()`. -/
def Control.default : Control :=
  ⟨ControlID.default, "", "", "", ParamMap.empty⟩

/-! ### Vec sort/dedup used by `Control::distinct_parameters` -/

/-- Byte-lexicographic `≤` on strings as character lists (Rust `String`
ordering). -/
def leCharList : List Char → List Char → Bool
  | [], _ => true
  | _ :: _, [] => false
  | a :: xs, b :: ys => if a = b then leCharList xs ys else decide (a.toNat ≤ b.toNat)

/-- Derived `Ord` for `Parameters`: lexicographic by `(assignment,
additional)`. -/
def leParams (p q : Parameters) : Bool :=
  if p.assignment = q.assignment then leCharList p.additional.data q.additional.data
  else leCharList p.assignment.data q.assignment.data

/-- Derived `Ord` for `Option<Parameters>`: `None` sorts before `Some`. -/
def leOptParams : Option Parameters → Option Parameters → Bool
  | none, _ => true
  | some _, none => false
  | some p, some q => leParams p q

/-- Ordered insertion for the sort model. -/
def insertIn {α : Type} (le : α → α → Bool) (x : α) : List α → List α
  | [] => [x]
  | y :: ys => if le x y then x :: y :: ys else y :: insertIn le x ys

/-- Model of `Vec::sort` (a sort is a permutation; only the multiset of
elements matters to the properties proved here). -/
def insertionSort {α : Type} (le : α → α → Bool) : List α → List α
  | [] => []
  | x :: xs => insertIn le x (insertionSort le xs)

/-- Model of `Vec::dedup`: remove consecutive equal elements. -/
def dedupAdj {α : Type} [DecidableEq α] : List α → List α
  | [] => []
  | [a] => [a]
  | a :: b :: t => if a = b then dedupAdj (b :: t) else a :: dedupAdj (b :: t)

/-- The in-place normalization loop of `distinct_parameters`: `Some v`
becomes `Some v.flatten()`; the `None` arm (`Some(Parameters::default())`)
is kept for fidelity even though the preceding `filter` makes it dead code. -/
def flattenStep : Option Parameters → Option Parameters
  | some v => some v.flatten
  | none => some Parameters.default

/-- `Control::distinct_parameters`: keep the `is_some` slots, normalize each,
sort, dedup, and test whether more than one distinct element remains. -/
def Control.distinct_parameters (c : Control) : Bool :=
  let flat := ((c.parameters.values.filter Option.isSome).map flattenStep)
  decide (1 < (dedupAdj (insertionSort leOptParams flat)).length)

/-- `Control::without_baseline`: clone with one slot cleared. -/
def Control.without_baseline (c : Control) (level : Baselines) : Control :=
  { c with parameters := c.parameters.set level none }

/-! ## main.rs: Controls and sheet parsing

A sheet (`calamine::Range<Data>`) is modelled at the `as_string` boundary:
a list of rows, each row a list of cells, each cell the `Option String`
produced by `Data::as_string()`.  `Controls.parse` can panic (through the
`parse::<u8>().unwrap()` inside `ControlID::from_str`), so it returns
`Option`, with `none` for the panic. -/

/-- `struct Controls { controls: HashMap<ControlID, Control> }`, as an
association list. -/
structure Controls where
  controls : List (ControlID × Control)
deriving DecidableEq

/-- `HashMap::insert`: replace the entry for an existing key, else append. -/
def insertKV (k : ControlID) (v : Control) : List (ControlID × Control) → List (ControlID × Control)
  | [] => [(k, v)]
  | (k1, v1) :: rest => if k1 = k then (k, v) :: rest else (k1, v1) :: insertKV k v rest

/-- `HashMap::get`. -/
def lookupKV (l : List (ControlID × Control)) (k : ControlID) : Option Control :=
  match l with
  | [] => none
  | (k1, v1) :: rest => if k1 = k then some v1 else lookupKV rest k

/-- One data cell routed by its (whitespace-collapsed) header name, in the
order of the `match` arms of `Controls::parse`.  Returns `none` when
`ControlID::from_str` panics (number/subnumber above 255). -/
def routeCell (b : Baselines) (control : Control) (name value : String) : Option Control :=
  if name = "ID" then
    match ControlID.fromStr value with
    | .ok id => some { control with id := id }
    | .err => some control
    | .panicked => none
  else if name = "Control Name" then
    some { control with name := trimS value }
  else if startsWithS name "NIST Control Description" then
    some { control with description := trimS value }
  else if startsWithS name "NIST Discussion" then
    some { control with discussion := trimS value }
  else if containsS name "Assignment / Selection" then
    let p := (control.parameters.get b).getD Parameters.default
    some { control with parameters := control.parameters.set b (some { p with assignment := trimS value }) }
  else if containsS name "Additional" then
    let p := (control.parameters.get b).getD Parameters.default
    some { control with parameters := control.parameters.set b (some { p with additional := trimS value }) }
  else
    some control

/-- The per-row cell loop: for each `(column, cell)` pair, look up the
column's header; route only cells that have both a header and a string
value. -/
def processCells (b : Baselines) (headers : List String) :
    List (Nat × Option String) → Control → Option Control
  | [], c => some c
  | (i, v) :: rest, c =>
    match headers.get? i with
    | none => processCells b headers rest c
    | some name =>
      match v with
      | none => processCells b headers rest c
      | some value =>
        match routeCell b c name value with
        | none => none
        | some c2 => processCells b headers rest c2

/-- One data row of `Controls::parse`: start from `Control::default()` with
this baseline's parameter slot set to `Some(Parameters::default())` (the
`parameters` alias in the source writes through into that slot), then run
the cell loop. -/
def processRow (b : Baselines) (headers : List String) (row : List (Option String)) : Option Control :=
  processCells b headers row.enum
    { Control.default with parameters := ParamMap.empty.set b (some Parameters.default) }

/-- The data-row loop of `Controls::parse`: insert each parsed control whose
id is non-empty, keyed by its id. -/
def parseRowsGo (b : Baselines) (headers : List String) :
    List (List (Option String)) → List (ControlID × Control) → Option (List (ControlID × Control))
  | [], acc => some acc
  | row :: rest, acc =>
    match processRow b headers row with
    | none => none
    | some control =>
      parseRowsGo b headers rest
        (if control.id.is_empty then acc else insertKV control.id control acc)

/-- `Controls::parse`: headers come from the row at index 1 (each header cell
`as_string().unwrap_or_default()` then whitespace-collapsed); data rows are
the rows from index 2 on. -/
def Controls.parse (sheet : List (List (Option String))) (b : Baselines) : Option Controls :=
  let headers := ((sheet.get? 1).getD []).map (fun v => collapseWsStr (v.getD ""))
  (parseRowsGo b headers (sheet.drop 2) []).map Controls.mk

/-- `Controls::without_baseline`: rebuild the map with every record's slot
for `level` cleared, keys unchanged. -/
def Controls.without_baseline (cs : Controls) (level : Baselines) : Controls :=
  ⟨cs.controls.map (fun kv => (kv.1, kv.2.without_baseline level))⟩

/-! ## main.rs: merge_controls -/

/-- The key set of a `Controls` map. -/
def keysOf (cs : Controls) : List ControlID :=
  cs.controls.map Prod.fst

/-- `HashSet` collection of the union of the three key sets (iteration order
of a `HashSet` is unspecified; map semantics downstream are
order-independent). -/
def dedupIds : List ControlID → List ControlID
  | [] => []
  | k :: rest =>
    let r := dedupIds rest
    if k ∈ r then r else k :: r

/-- The body of the merge loop for one identifier.  `none` models the panic
of `baselines[&Baselines::High].controls.get(&id).unwrap()` when the High
map has no record for `id`.  Narrative fields come from the High record;
each parameter slot is copied from the same-level record when that record
exists. -/
def mergeOne (high moderate low : Controls) (id : ControlID) : Option Control :=
  match lookupKV high.controls id with
  | none => none
  | some h =>
    some
      { id := h.id, name := h.name, description := h.description, discussion := h.discussion,
        parameters :=
          { high := (lookupKV high.controls id).bind (fun c => c.parameters.high),
            moderate := (lookupKV moderate.controls id).bind (fun c => c.parameters.moderate),
            low := (lookupKV low.controls id).bind (fun c => c.parameters.low) } }

/-- Effectful map that stops at the first panic (`none`). -/
def mapOpt {α β : Type} (f : α → Option β) : List α → Option (List β)
  | [] => some []
  | x :: xs =>
    match f x with
    | none => none
    | some y => (mapOpt f xs).map (fun ys => y :: ys)

/-- `merge_controls`, specialised to the three per-baseline maps the program
builds.  Returns `none` when the loop would panic. -/
def merge_controls (high moderate low : Controls) : Option Controls :=
  let ids := dedupIds (keysOf high ++ keysOf moderate ++ keysOf low)
  (mapOpt (fun id => (mergeOne high moderate low id).map (fun c => (id, c))) ids).map Controls.mk

/-! ## main.rs: tabulate_controls (per-control layout)

A cell is its text plus its rowspan (cells built by `TableCell::default()`
carry no rowspan attribute, which renders as a span of 1); a row is its
`class` attribute plus its cells.  `tabulateControl` is the body of the
per-identifier loop of `tabulate_controls`; the full table is that body
mapped over the identifiers in ascending order after the header row. -/

/-- One table cell: content text and rowspan. -/
structure Cell where
  content : String
  rowspan : Nat
deriving DecidableEq

/-- One table row: class attribute and cells. -/
structure Row where
  cls : String
  cells : List Cell
deriving DecidableEq

/-- `"\u{2713}"`. -/
def tick : String := "✓"

/-- The presence-marker closure `tick_if_present`. -/
def tickIfPresent (c : Control) (b : Baselines) : String :=
  if (c.parameters.get b).isSome then tick else ""

/-- `name.replace(" | ", "\n")` (left-to-right, non-overlapping). -/
def replaceBarChars : List Char → List Char
  | ' ' :: '|' :: ' ' :: rest => '\n' :: replaceBarChars rest
  | c :: rest => c :: replaceBarChars rest
  | [] => []

/-- `String::replace(" | ", "\n")` on the control name. -/
def replaceBar (s : String) : String :=
  ⟨replaceBarChars s.data⟩

/-- One per-baseline detail row: label, raw assignment and raw additional
text when the slot is populated; an empty placeholder row otherwise. -/
def detailRow (c : Control) (b : Baselines) : Row :=
  { cls := "parameters " ++ b.short,
    cells :=
      match c.parameters.get b with
      | some p => [⟨b.short, 1⟩, ⟨p.assignment, 1⟩, ⟨p.additional, 1⟩]
      | none => [] }

/-- The body of the per-identifier loop of `tabulate_controls`: the shared
row (with the three extra parameter cells when there is no distinct
variation, sourced from `parameters.values().next()`, i.e. the High slot),
followed, when there is distinct variation, by one detail row per baseline
in `Baselines::iter()` order. -/
def tabulateControl (c : Control) : List Row :=
  let hasParameterRows := c.distinct_parameters
  let rowspan := if hasParameterRows then 1 + ParamMap.len else 1
  let base :=
    [(⟨c.id.toDisplay, rowspan⟩ : Cell),
     ⟨tickIfPresent c .High, rowspan⟩,
     ⟨tickIfPresent c .Moderate, rowspan⟩,
     ⟨tickIfPresent c .Low, rowspan⟩,
     ⟨replaceBar c.name, rowspan⟩,
     ⟨c.description, rowspan⟩,
     ⟨c.discussion, rowspan⟩]
  let sharedCells :=
    if hasParameterRows then base
    else
      base ++ [(⟨"", rowspan⟩ : Cell)] ++
        (match c.parameters.values.head? with
         | some (some p) => [(⟨p.assignment, rowspan⟩ : Cell), ⟨p.additional, rowspan⟩]
         | _ => [(⟨"", rowspan⟩ : Cell), ⟨"", rowspan⟩])
  if hasParameterRows then
    ⟨"shared", sharedCells⟩ :: (Baselines.iterOrder.map (detailRow c))
  else
    [⟨"shared", sharedCells⟩]

/-- Content of the cell at row `i`, column `j` of a row list. -/
def cellContentAt (rows : List Row) (i j : Nat) : Option String :=
  (rows.get? i).bind (fun r => (r.cells.get? j).map Cell.content)

/-! ## A spec-side definition, for one refinement comparison

`Control.distinct_parameters` above is translated from the source.  The
specification describes the same decision differently; the following
definition follows the spec's words so the two can be compared. -/

/-- The distinct-variation decision as the specification words it: normalize
each of the three slots with `None` replaced by the canonical empty
`ParameterSet`, deduplicate as a set, and ask whether more than one unique
`ParameterSet` remains. -/
def specDistinctParameters (c : Control) : Bool :=
  decide (1 < (dedupAdj (insertionSort leParams
    (c.parameters.values.map (fun x => (x.getD Parameters.default).flatten)))).length)

/-! ## Concrete inputs used by witnesses and counterexamples -/

/-- A control populated only in High, with a non-empty assignment. -/
def exOnlyHigh : Control :=
  { Control.default with parameters := ⟨some ⟨"Foo", ""⟩, none, none⟩ }

/-- High assignment `"  Foo   Bar "` vs Moderate assignment `"Foo Bar"`,
additional fields equal, Low absent. -/
def exWsEdge : Control :=
  { Control.default with parameters := ⟨some ⟨"  Foo   Bar ", ""⟩, some ⟨"Foo Bar", ""⟩, none⟩ }

/-- High assignment `"Foo   Bar"` vs Moderate assignment `"Foo Bar"`
(internal whitespace runs only). -/
def exWsInner : Control :=
  { Control.default with parameters := ⟨some ⟨"Foo   Bar", ""⟩, some ⟨"Foo Bar", ""⟩, none⟩ }

/-- High assignment `"Foo"` vs Moderate assignment `"Bar"`. -/
def exFooBar : Control :=
  { Control.default with parameters := ⟨some ⟨"Foo", ""⟩, some ⟨"Bar", ""⟩, none⟩ }

/-- High absent, Moderate populated with assignment `"Foo"`. -/
def exModOnly : Control :=
  { Control.default with parameters := ⟨none, some ⟨"Foo", ""⟩, none⟩ }

/-- High populated with distinct assignment/additional texts. -/
def exHighCell : Control :=
  { Control.default with parameters := ⟨some ⟨"hassign", "hextra"⟩, none, none⟩ }

/-- The identifier `AC-1`. -/
def exId : ControlID := ⟨"AC", 1, 0⟩

/-- An `AC-1` record populated only in High. -/
def exHighRec : Control :=
  { Control.default with id := exId, parameters := ⟨some Parameters.default, none, none⟩ }

/-- An `AC-1` record populated only in Moderate. -/
def exModRec : Control :=
  { Control.default with id := exId, parameters := ⟨none, some Parameters.default, none⟩ }

/-- A High map holding only `AC-1`. -/
def exHighMap : Controls := ⟨[(exId, exHighRec)]⟩

/-- A Moderate map holding only `AC-1`. -/
def exModMap : Controls := ⟨[(exId, exModRec)]⟩

/-- An empty per-baseline map. -/
def exEmptyMap : Controls := ⟨[]⟩

/-- A sheet with a title row, a header row and one data row. -/
def exSheet : List (List (Option String)) :=
  [[],
   [some "ID", some "Control Name", some "NIST Control Description (text)",
    some "NIST Discussion", some "Assignment / Selection", some "Additional guidance"],
   [some "AC-2", some " Access Enforcement ", some "a description", some "a discussion",
    some "an assignment", some "extra guidance"]]

/-- The parse of `exSheet` as the High baseline. -/
def exParsed : Controls := (Controls.parse exSheet .High).getD ⟨[]⟩

/-- The single entry of `exParsed`. -/
def exEntry : ControlID × Control := exParsed.controls.headD (ControlID.default, Control.default)

/-- The merge of `exHighMap` with two empty maps. -/
def exMerged : Controls := (merge_controls exHighMap exEmptyMap exEmptyMap).getD ⟨[]⟩

/-- The single entry of `exMerged`. -/
def exMergedEntry : ControlID × Control := exMerged.controls.headD (ControlID.default, Control.default)

/-- `exHighMap` with the Low baseline filtered out. -/
def exFiltered : Controls := exHighMap.without_baseline .Low

/-- The single entry of `exFiltered`. -/
def exFilteredEntry : ControlID × Control := exFiltered.controls.headD (ControlID.default, Control.default)

/-! ## Generic lemmas about the sort/dedup model -/

theorem mem_insertIn {α : Type} (le : α → α → Bool) (x a : α) :
    ∀ l : List α, a ∈ insertIn le x l ↔ a = x ∨ a ∈ l
  | [] => by simp [insertIn]
  | y :: ys => by
    by_cases h : le x y = true
    · simp only [insertIn, if_pos h, List.mem_cons]
    · simp only [insertIn, if_neg h, List.mem_cons, mem_insertIn le x a ys]
      tauto

theorem mem_insertionSort {α : Type} (le : α → α → Bool) (a : α) :
    ∀ l : List α, a ∈ insertionSort le l ↔ a ∈ l
  | [] => by simp [insertionSort]
  | x :: xs => by
    simp [insertionSort, mem_insertIn, mem_insertionSort le a xs]

theorem dedupAdj_ne_nil {α : Type} [DecidableEq α] (a : α) :
    ∀ l : List α, dedupAdj (a :: l) ≠ []
  | [] => by simp [dedupAdj]
  | b :: t => by
    by_cases h : a = b
    · simpa [dedupAdj, h] using dedupAdj_ne_nil b t
    · simp [dedupAdj, h]

theorem dedupAdj_all_eq {α : Type} [DecidableEq α] (x : α) :
    ∀ l : List α, (∀ a ∈ l, a = x) → (dedupAdj l).length ≤ 1
  | [], _ => by simp [dedupAdj]
  | [_], _ => by simp [dedupAdj]
  | a :: b :: t, h => by
    have hab : a = b := (h a (by simp)).trans (h b (by simp)).symm
    have : dedupAdj (a :: b :: t) = dedupAdj (b :: t) := by simp [dedupAdj, hab]
    rw [this]
    exact dedupAdj_all_eq x (b :: t) (fun y hy => h y (List.mem_cons_of_mem _ hy))

theorem one_lt_dedupAdj_of_ne {α : Type} [DecidableEq α] :
    ∀ (l : List α) (x y : α), x ∈ l → y ∈ l → x ≠ y → 1 < (dedupAdj l).length
  | [], x, y, hx, _, _ => by simp at hx
  | [a], x, y, hx, hy, hxy => by
    simp at hx hy
    exact absurd (hx.trans hy.symm) hxy
  | a :: b :: t, x, y, hx, hy, hxy => by
    by_cases h : a = b
    · have hx2 : x ∈ b :: t := by
        rcases List.mem_cons.mp hx with rfl | h2
        · exact h ▸ List.mem_cons_self _ _
        · exact h2
      have hy2 : y ∈ b :: t := by
        rcases List.mem_cons.mp hy with rfl | h2
        · exact h ▸ List.mem_cons_self _ _
        · exact h2
      have : dedupAdj (a :: b :: t) = dedupAdj (b :: t) := by simp [dedupAdj, h]
      rw [this]
      exact one_lt_dedupAdj_of_ne (b :: t) x y hx2 hy2 hxy
    · have : dedupAdj (a :: b :: t) = a :: dedupAdj (b :: t) := by simp [dedupAdj, h]
      rw [this]
      have hne := dedupAdj_ne_nil b t
      have hpos : 0 < (dedupAdj (b :: t)).length := List.length_pos.mpr hne
      simp only [List.length_cons]
      omega

theorem one_lt_sortDedup_iff {α : Type} [DecidableEq α] (le : α → α → Bool) (l : List α) :
    1 < (dedupAdj (insertionSort le l)).length ↔ ∃ a ∈ l, ∃ b ∈ l, a ≠ b := by
  constructor
  · intro h
    by_contra hno
    push_neg at hno
    cases hs : insertionSort le l with
    | nil => rw [hs] at h; simp [dedupAdj] at h
    | cons c cs =>
      have hc : c ∈ l := (mem_insertionSort le c l).mp (by rw [hs]; exact List.mem_cons_self _ _)
      have hall : ∀ a ∈ c :: cs, a = c := by
        intro a ha
        exact hno a ((mem_insertionSort le a l).mp (by rw [hs]; exact ha)) c hc
      have := dedupAdj_all_eq c (c :: cs) hall
      rw [hs] at h
      omega
  · rintro ⟨a, ha, b, hb, hab⟩
    exact one_lt_dedupAdj_of_ne _ a b ((mem_insertionSort le a l).mpr ha)
      ((mem_insertionSort le b l).mpr hb) hab

theorem mem_paramValues (m : ParamMap) (x : Option Parameters) :
    x ∈ m.values ↔ ∃ b : Baselines, m.get b = x := by
  constructor
  · intro hx
    rcases List.mem_cons.mp hx with h | hx2
    · exact ⟨.High, h.symm⟩
    rcases List.mem_cons.mp hx2 with h | hx3
    · exact ⟨.Moderate, h.symm⟩
    rcases List.mem_cons.mp hx3 with h | hx4
    · exact ⟨.Low, h.symm⟩
    · simp at hx4
  · rintro ⟨b, rfl⟩
    cases b
    · exact List.mem_cons_self _ _
    · exact List.mem_cons_of_mem _ (List.mem_cons_self _ _)
    · exact List.mem_cons_of_mem _ (List.mem_cons_of_mem _ (List.mem_cons_self _ _))

/-! ## Claim C1 -/

/-- Claim C1 (failing evaluation): merging three per-baseline maps in which
the identifier `AC-1` is present only in the Moderate map does not produce a
merged record for `AC-1`; `merge_controls` panics (the `unwrap` of the
missing High record), modelled by `none`.  The claim (union semantics) says
`AC-1` should still get a merged record. -/
theorem claim_C1_high_lookup_panics :
    merge_controls exEmptyMap exModMap exEmptyMap = none := by decide

/-! ## Claim C2 -/

/-- Claim C2 (counterexample): a record with exactly one populated slot whose
normalized text differs from empty (High `"Foo"`, Moderate and Low `None`)
has NO distinct variation under the code, while the claim's decision rule
(each `None` slot replaced by the canonical empty `ParameterSet`) reports
distinct variation: the claimed iff fails at this record. -/
theorem claim_C2_counterexample :
    Control.distinct_parameters exOnlyHigh = false ∧ specDistinctParameters exOnlyHigh = true := by
  decide

/-- Claim C2 (amended): the distinct-variation decision considers only the
populated (`Some`) slots — absent slots are dropped before the comparison,
never replaced by the empty `ParameterSet` — so a merged record has distinct
variation iff two populated slots have different whitespace-normalized
parameter text. -/
theorem claim_C2_amended (c : Control) :
    c.distinct_parameters = true ↔
      ∃ b1 b2 : Baselines, ∃ p1 p2 : Parameters,
        c.parameters.get b1 = some p1 ∧ c.parameters.get b2 = some p2 ∧
          p1.flatten ≠ p2.flatten := by
  have hdp : c.distinct_parameters = true ↔
      1 < (dedupAdj (insertionSort leOptParams
        ((c.parameters.values.filter Option.isSome).map flattenStep))).length := by
    simp [Control.distinct_parameters]
  rw [hdp, one_lt_sortDedup_iff]
  constructor
  · rintro ⟨a, ha, b, hb, hab⟩
    rcases List.mem_map.mp ha with ⟨xa, hxa, rfl⟩
    rcases List.mem_map.mp hb with ⟨xb, hxb, rfl⟩
    rcases List.mem_filter.mp hxa with ⟨hxa1, hxa2⟩
    rcases List.mem_filter.mp hxb with ⟨hxb1, hxb2⟩
    rcases Option.isSome_iff_exists.mp hxa2 with ⟨pa, rfl⟩
    rcases Option.isSome_iff_exists.mp hxb2 with ⟨pb, rfl⟩
    rcases (mem_paramValues _ _).mp hxa1 with ⟨b1, hb1⟩
    rcases (mem_paramValues _ _).mp hxb1 with ⟨b2, hb2⟩
    refine ⟨b1, b2, pa, pb, hb1, hb2, fun he => hab ?_⟩
    simp [flattenStep, he]
  · rintro ⟨b1, b2, p1, p2, h1, h2, hne⟩
    refine ⟨flattenStep (some p1),
      List.mem_map.mpr ⟨some p1, List.mem_filter.mpr ⟨(mem_paramValues _ _).mpr ⟨b1, h1⟩, rfl⟩, rfl⟩,
      flattenStep (some p2),
      List.mem_map.mpr ⟨some p2, List.mem_filter.mpr ⟨(mem_paramValues _ _).mpr ⟨b2, h2⟩, rfl⟩, rfl⟩,
      ?_⟩
    simpa [flattenStep] using hne

/-- Claim C2 (witness): the amended characterization applied to the record
with High `"Foo"` and Moderate `"Bar"`. -/
theorem claim_C2_witness : Control.distinct_parameters exFooBar = true :=
  (claim_C2_amended exFooBar).mpr ⟨.High, .Moderate, ⟨"Foo", ""⟩, ⟨"Bar", ""⟩, rfl, rfl, by decide⟩

/-! ## Claim C3 -/

/-- Claim C3 (counterexample): a merged record with High assignment
`"  Foo   Bar "` and Moderate assignment `"Foo Bar"` (additional fields
equal, Low absent) DOES report distinct variation, contrary to the claim:
`flatten` collapses whitespace runs but does not trim, so the normalized
forms `" Foo Bar "` and `"Foo Bar"` differ. -/
theorem claim_C3_counterexample :
    Control.distinct_parameters exWsEdge = true := by decide

/-- Claim C3 (amended): with High assignment `"Foo   Bar"` and Moderate
assignment `"Foo Bar"` — whitespace differences in internal runs only — the
record reports NO distinct variation, while High `"Foo"` vs Moderate `"Bar"`
reports distinct variation. -/
theorem claim_C3_amended :
    Control.distinct_parameters exWsInner = false ∧
      Control.distinct_parameters exFooBar = true := by decide

/-! ## Claim C4 -/

/-- Claim C4 (counterexample): for a record with no distinct variation whose
High slot is `None` and whose Moderate slot carries assignment `"Foo"`, the
shared row's parameter-assignment cell is empty — the Moderate slot's text
is NOT used, contrary to the claim's first-populated-slot rule. -/
theorem claim_C4_counterexample :
    cellContentAt (tabulateControl exModOnly) 0 8 = some "" ∧
      cellContentAt (tabulateControl exModOnly) 0 8 ≠ some "Foo" := by decide

/-- Claim C4 (amended): for every merged record without distinct variation,
the shared row's parameter-assignment and parameter-additional cells are
sourced from the High slot when it is populated (`parameters.values().next()`
is always the High slot), and are empty otherwise — other populated slots
are never consulted. -/
theorem claim_C4_amended (c : Control) (h : c.distinct_parameters = false) :
    cellContentAt (tabulateControl c) 0 8 =
        some (((c.parameters.get .High).map Parameters.assignment).getD "") ∧
      cellContentAt (tabulateControl c) 0 9 =
        some (((c.parameters.get .High).map Parameters.additional).getD "") := by
  rcases hh : c.parameters.high with _ | p <;>
    simp [tabulateControl, h, cellContentAt, ParamMap.values, ParamMap.get, hh]

/-- Claim C4 (witness): the amended rule applied to a record whose High slot
carries assignment `"hassign"` and additional `"hextra"`. -/
theorem claim_C4_witness :
    cellContentAt (tabulateControl exHighCell) 0 8 = some "hassign" ∧
      cellContentAt (tabulateControl exHighCell) 0 9 = some "hextra" :=
  claim_C4_amended exHighCell (by decide)

/-! ## Claim C7 -/

/-- Claim C7: a merged record without distinct variation yields exactly one
row, all of whose cells carry rowspan 1; a record with distinct variation
yields exactly four rows — the shared row, whose cells carry rowspan 4,
followed by the High, Moderate and Low detail rows in that order — and the
detail row of an unpopulated baseline slot is an empty placeholder row. -/
theorem claim_C7_rowspan_layout (c : Control) :
    (c.distinct_parameters = false →
      (tabulateControl c).length = 1 ∧
        ∀ row ∈ tabulateControl c, ∀ cell ∈ row.cells, cell.rowspan = 1)
    ∧ (c.distinct_parameters = true →
      (tabulateControl c).length = 4
        ∧ (∀ cell ∈ ((tabulateControl c).headD ⟨"", []⟩).cells, cell.rowspan = 4)
        ∧ (tabulateControl c).get? 1 = some (detailRow c .High)
        ∧ (tabulateControl c).get? 2 = some (detailRow c .Moderate)
        ∧ (tabulateControl c).get? 3 = some (detailRow c .Low)
        ∧ ∀ b, c.parameters.get b = none → (detailRow c b).cells = []) := by
  constructor
  · intro h
    constructor
    · rcases hh : c.parameters.high with _ | p <;>
        simp [tabulateControl, h, ParamMap.values, hh]
    · intro row hrow cell hcell
      rcases hh : c.parameters.high with _ | p <;>
        simp [tabulateControl, h, ParamMap.values, hh] at hrow <;>
        subst hrow <;>
        simp at hcell <;>
        rcases hcell with rfl | rfl | rfl | rfl | rfl | rfl | rfl | rfl | rfl | rfl <;> rfl
  · intro h
    refine ⟨by simp [tabulateControl, h, Baselines.iterOrder], ?_, ?_, ?_, ?_, ?_⟩
    · intro cell hcell
      simp [tabulateControl, h] at hcell
      rcases hcell with rfl | rfl | rfl | rfl | rfl | rfl | rfl <;> rfl
    · simp [tabulateControl, h, Baselines.iterOrder]
    · simp [tabulateControl, h, Baselines.iterOrder]
    · simp [tabulateControl, h, Baselines.iterOrder]
    · intro b hb
      simp [detailRow, hb]

/-- Claim C7 (witness): row counts at a record without distinct variation
(the default control) and at one with distinct variation (High `"Foo"` vs
Moderate `"Bar"`). -/
theorem claim_C7_witness :
    (tabulateControl Control.default).length = 1 ∧ (tabulateControl exFooBar).length = 4 :=
  ⟨((claim_C7_rowspan_layout Control.default).1 (by decide)).1,
    ((claim_C7_rowspan_layout exFooBar).2 (by decide)).1⟩

/-! ## Lemmas about the regex model -/

theorem spanP_all (p : Char → Bool) :
    ∀ l : List Char, (∀ x ∈ l, p x = true) → spanP p l = (l, [])
  | [], _ => rfl
  | c :: cs, h => by
    have hc : p c = true := h c (by simp)
    simp [spanP, hc, spanP_all p cs (fun x hx => h x (List.mem_cons_of_mem _ hx))]

theorem spanP_append (p : Char → Bool) (y : Char) (r : List Char) (hy : p y = false) :
    ∀ xs : List Char, (∀ x ∈ xs, p x = true) → spanP p (xs ++ y :: r) = (xs, y :: r)
  | [], _ => by simp [spanP, hy]
  | c :: cs, h => by
    have hc : p c = true := h c (by simp)
    simp [spanP, hc, spanP_append p y r hy cs (fun x hx => h x (List.mem_cons_of_mem _ hx))]

theorem matchIdAt_plain (ws ds : List Char)
    (hws : ws ≠ []) (hw : ∀ c ∈ ws, isWordChar c = true)
    (hds : ds ≠ []) (hd : ∀ c ∈ ds, isDigitChar c = true) :
    matchIdAt (ws ++ '-' :: ds) = some ⟨ws, ds, none⟩ := by
  have h1 : spanP isWordChar (ws ++ '-' :: ds) = (ws, '-' :: ds) :=
    spanP_append isWordChar '-' ds (by decide) ws hw
  have h2 : spanP isDigitChar ds = (ds, []) := spanP_all isDigitChar ds hd
  have hwe : ws.isEmpty = false := by
    cases ws with
    | nil => exact absurd rfl hws
    | cons a tl => rfl
  have hde : ds.isEmpty = false := by
    cases ds with
    | nil => exact absurd rfl hds
    | cons a tl => rfl
  simp [matchIdAt, matchSubnum, spanP, h1, h2, hwe, hde]

theorem matchIdAt_paren (ws ds ds2 : List Char)
    (hws : ws ≠ []) (hw : ∀ c ∈ ws, isWordChar c = true)
    (hds : ds ≠ []) (hd : ∀ c ∈ ds, isDigitChar c = true)
    (hds2 : ds2 ≠ []) (hd2 : ∀ c ∈ ds2, isDigitChar c = true) :
    matchIdAt (ws ++ '-' :: (ds ++ ' ' :: '(' :: (ds2 ++ [')']))) = some ⟨ws, ds, some ds2⟩ := by
  have h1 : spanP isWordChar (ws ++ '-' :: (ds ++ ' ' :: '(' :: (ds2 ++ [')']))) =
      (ws, '-' :: (ds ++ ' ' :: '(' :: (ds2 ++ [')']))) :=
    spanP_append isWordChar '-' _ (by decide) ws hw
  have h2 : spanP isDigitChar (ds ++ ' ' :: '(' :: (ds2 ++ [')'])) =
      (ds, ' ' :: '(' :: (ds2 ++ [')'])) :=
    spanP_append isDigitChar ' ' _ (by decide) ds hd
  have h3 : spanP isSpaceChar (' ' :: '(' :: (ds2 ++ [')'])) = ([' '], '(' :: (ds2 ++ [')'])) := by
    have := spanP_append isSpaceChar '(' (ds2 ++ [')']) (by decide) [' '] (by decide)
    simpa using this
  have h4 : spanP isDigitChar (ds2 ++ [')']) = (ds2, [')']) :=
    spanP_append isDigitChar ')' [] (by decide) ds2 hd2
  have hwe : ws.isEmpty = false := by
    cases ws with
    | nil => exact absurd rfl hws
    | cons a tl => rfl
  have hde : ds.isEmpty = false := by
    cases ds with
    | nil => exact absurd rfl hds
    | cons a tl => rfl
  have hde2 : ds2.isEmpty = false := by
    cases ds2 with
    | nil => exact absurd rfl hds2
    | cons a tl => rfl
  simp [matchIdAt, matchSubnum, h1, h2, h3, h4, hwe, hde, hde2]

theorem findIdMatch_nonnil (l : List Char) (hl : l ≠ []) (m : RegexMatch)
    (h : matchIdAt l = some m) : findIdMatch l = some m := by
  cases l with
  | nil => exact absurd rfl hl
  | cons c cs => simp [findIdMatch, h]

set_option maxRecDepth 4000 in
theorem digitsToNat_repr (n : Nat) (h : n ≤ 255) : digitsToNat (Nat.repr n).data = n := by
  revert n h
  decide

set_option maxRecDepth 4000 in
theorem repr_data_ne_nil (n : Nat) (h : n ≤ 255) : (Nat.repr n).data ≠ [] := by
  revert n h
  decide

set_option maxRecDepth 4000 in
theorem repr_data_digits (n : Nat) (h : n ≤ 255) :
    ∀ c ∈ (Nat.repr n).data, isDigitChar c = true := by
  revert n h
  decide

/-! ## Claim C5 -/

/-- Claim C5: for every identifier text of the form `SUBJECT-NUMBER`
(non-empty word-character subject, number in the representable range),
`from_str` succeeds and `Display` reproduces exactly the input; for
`SUBJECT-NUMBER (SUBNUMBER)` with subnumber > 0 the round-trip reproduces
the parenthesized form; an identifier with subnumber = 0 always renders the
unparenthesized form. -/
theorem claim_C5_roundtrip (subject : String) (n m : Nat)
    (hsub : subject.data ≠ []) (hw : ∀ c ∈ subject.data, isWordChar c = true)
    (hn1 : 0 < n) (hn2 : n ≤ 255) (hm1 : 0 < m) (hm2 : m ≤ 255) :
    (ControlID.fromStr (subject ++ "-" ++ Nat.repr n) = .ok ⟨subject, n, 0⟩
      ∧ ControlID.toDisplay ⟨subject, n, 0⟩ = subject ++ "-" ++ Nat.repr n)
    ∧ (ControlID.fromStr (subject ++ "-" ++ Nat.repr n ++ " (" ++ Nat.repr m ++ ")")
          = .ok ⟨subject, n, m⟩
      ∧ ControlID.toDisplay ⟨subject, n, m⟩
          = subject ++ "-" ++ Nat.repr n ++ " (" ++ Nat.repr m ++ ")")
    ∧ (∀ c : ControlID, c.subnumber = 0 →
        c.toDisplay = c.subject ++ "-" ++ Nat.repr c.number) := by
  have hdash : ("-" : String).data = ['-'] := rfl
  have hparen : (" (" : String).data = [' ', '('] := rfl
  have hclose : (")" : String).data = [')'] := rfl
  have hplainData : (subject ++ "-" ++ Nat.repr n).data
      = subject.data ++ '-' :: (Nat.repr n).data := by
    simp [String.data_append, hdash]
  have hparenData : (subject ++ "-" ++ Nat.repr n ++ " (" ++ Nat.repr m ++ ")").data
      = subject.data ++ '-' :: ((Nat.repr n).data ++ ' ' :: '(' :: ((Nat.repr m).data ++ [')'])) := by
    simp [String.data_append, hdash, hparen, hclose]
  have happne : subject.data ++ '-' :: (Nat.repr n).data ≠ [] := by
    cases hq : subject.data with
    | nil => exact absurd hq hsub
    | cons a tl => simp [hq]
  have happne2 : subject.data ++ '-' :: ((Nat.repr n).data ++ ' ' :: '(' :: ((Nat.repr m).data ++ [')'])) ≠ [] := by
    cases hq : subject.data with
    | nil => exact absurd hq hsub
    | cons a tl => simp [hq]
  refine ⟨⟨?_, ?_⟩, ⟨?_, ?_⟩, ?_⟩
  · have hfind : findIdMatch (subject ++ "-" ++ Nat.repr n).data
        = some ⟨subject.data, (Nat.repr n).data, none⟩ := by
      rw [hplainData]
      exact findIdMatch_nonnil _ happne _
        (matchIdAt_plain subject.data (Nat.repr n).data hsub hw (repr_data_ne_nil n hn2)
          (repr_data_digits n hn2))
    simp only [ControlID.fromStr, hfind, digitsToNat_repr n hn2]
    rw [if_neg (by omega)]
  · simp [ControlID.toDisplay]
  · have hfind : findIdMatch (subject ++ "-" ++ Nat.repr n ++ " (" ++ Nat.repr m ++ ")").data
        = some ⟨subject.data, (Nat.repr n).data, some (Nat.repr m).data⟩ := by
      rw [hparenData]
      exact findIdMatch_nonnil _ happne2 _
        (matchIdAt_paren subject.data (Nat.repr n).data (Nat.repr m).data hsub hw
          (repr_data_ne_nil n hn2) (repr_data_digits n hn2)
          (repr_data_ne_nil m hm2) (repr_data_digits m hm2))
    simp only [ControlID.fromStr, hfind, digitsToNat_repr n hn2, digitsToNat_repr m hm2]
    rw [if_neg (by omega), if_neg (by omega)]
  · simp [ControlID.toDisplay, hm1]
  · intro c hc
    simp [ControlID.toDisplay, hc]

/-- Claim C5 (witness): the round-trip at subject `"AC"`, number 2,
subnumber 1. -/
theorem claim_C5_witness :
    ControlID.fromStr ("AC" ++ "-" ++ Nat.repr 2) = .ok ⟨"AC", 2, 0⟩ ∧
      ControlID.fromStr ("AC" ++ "-" ++ Nat.repr 2 ++ " (" ++ Nat.repr 1 ++ ")")
        = .ok ⟨"AC", 2, 1⟩ :=
  ⟨(claim_C5_roundtrip "AC" 2 1 (by decide) (by decide) (by decide) (by decide) (by decide)
      (by decide)).1.1,
    (claim_C5_roundtrip "AC" 2 1 (by decide) (by decide) (by decide) (by decide) (by decide)
      (by decide)).2.1.1⟩

/-! ## Claim C6 -/

/-- Claim C6: whenever the identifier pattern matches but the captured
number or subnumber digit group denotes a value above 255, parsing panics
(the propagated `unwrap` failure): it never returns a successfully parsed
identifier, so no component is ever silently wrapped to a smaller value. -/
theorem claim_C6_no_silent_wrap (s : String) (m : RegexMatch)
    (h1 : findIdMatch s.data = some m)
    (h2 : 255 < digitsToNat m.number ∨ ∃ d, m.subnumber = some d ∧ 255 < digitsToNat d) :
    ControlID.fromStr s = .panicked ∧ ∀ c : ControlID, ControlID.fromStr s ≠ .ok c := by
  have hp : ControlID.fromStr s = .panicked := by
    simp only [ControlID.fromStr, h1]
    rcases h2 with h | ⟨d, hd, hdv⟩
    · rw [if_pos h]
    · by_cases hnum : 255 < digitsToNat m.number
      · rw [if_pos hnum]
      · rw [if_neg hnum]
        simp only [hd]
        rw [if_pos hdv]
  exact ⟨hp, fun c hc => by rw [hp] at hc; exact ParseResult.noConfusion hc⟩

/-- Claim C6 (witness): parsing `"AC-999"` panics rather than wrapping 999
into a `u8`. -/
theorem claim_C6_witness : ControlID.fromStr "AC-999" = .panicked :=
  (claim_C6_no_silent_wrap "AC-999" ⟨['A', 'C'], ['9', '9', '9'], none⟩ (by decide)
    (Or.inl (by decide))).1

/-! ## Lemmas about parsing, merging and filtering -/

theorem get_set_same (m : ParamMap) (b : Baselines) (v : Option Parameters) :
    (m.set b v).get b = v := by
  cases b <;> rfl

theorem get_set_ne (m : ParamMap) (b b2 : Baselines) (v : Option Parameters) (h : b2 ≠ b) :
    (m.set b v).get b2 = m.get b2 := by
  cases b <;> cases b2 <;> first | rfl | exact absurd rfl h

theorem empty_get (b : Baselines) : ParamMap.empty.get b = none := by
  cases b <;> rfl

theorem routeCell_params (b : Baselines) (c : Control) (name value : String) (c2 : Control)
    (h : routeCell b c name value = some c2) :
    c2.parameters = c.parameters ∨ ∃ p, c2.parameters = c.parameters.set b (some p) := by
  simp only [routeCell] at h
  split at h
  · split at h
    · cases h; exact Or.inl rfl
    · cases h; exact Or.inl rfl
    · cases h
  · split at h
    · cases h; exact Or.inl rfl
    · split at h
      · cases h; exact Or.inl rfl
      · split at h
        · cases h; exact Or.inl rfl
        · split at h
          · cases h; exact Or.inr ⟨_, rfl⟩
          · split at h
            · cases h; exact Or.inr ⟨_, rfl⟩
            · cases h; exact Or.inl rfl

theorem processCells_params (b : Baselines) (headers : List String) :
    ∀ (cells : List (Nat × Option String)) (c c2 : Control),
      processCells b headers cells c = some c2 →
      (∀ b2, b2 ≠ b → c2.parameters.get b2 = c.parameters.get b2) ∧
        ((c.parameters.get b).isSome = true → (c2.parameters.get b).isSome = true)
  | [], c, c2, h => by
    cases h
    exact ⟨fun _ _ => rfl, id⟩
  | (i, v) :: rest, c, c2, h => by
    rcases hname : headers.get? i with _ | name <;>
      rcases hv : v with _ | value <;>
      simp only [processCells, hname, hv] at h
    · exact processCells_params b headers rest c c2 h
    · exact processCells_params b headers rest c c2 h
    · exact processCells_params b headers rest c c2 h
    · split at h
      · exact absurd h (by simp)
      next c3 heq =>
        have ih := processCells_params b headers rest c3 c2 h
        rcases routeCell_params b c name value c3 heq with hsame | ⟨p, hset⟩
        · exact ⟨fun b2 hb2 => (ih.1 b2 hb2).trans (by rw [hsame]),
            fun hs => ih.2 (by rw [hsame]; exact hs)⟩
        · refine ⟨fun b2 hb2 => (ih.1 b2 hb2).trans ?_, fun _ => ih.2 ?_⟩
          · rw [hset, get_set_ne _ _ _ _ hb2]
          · rw [hset, get_set_same]
            rfl

theorem processRow_shape (b : Baselines) (headers : List String) (row : List (Option String))
    (c : Control) (h : processRow b headers row = some c) :
    (c.parameters.get b).isSome = true ∧ ∀ b2, b2 ≠ b → c.parameters.get b2 = none := by
  have hp := processCells_params b headers row.enum _ c h
  constructor
  · apply hp.2
    rw [get_set_same]
    rfl
  · intro b2 hb2
    rw [hp.1 b2 hb2, get_set_ne _ _ _ _ hb2, empty_get]

theorem mem_insertKV (k : ControlID) (v : Control) :
    ∀ (l : List (ControlID × Control)) (kv : ControlID × Control),
      kv ∈ insertKV k v l → kv = (k, v) ∨ kv ∈ l
  | [], kv, h => by
    simp [insertKV] at h
    exact Or.inl h
  | (k1, v1) :: rest, kv, h => by
    simp only [insertKV] at h
    split at h
    · rcases List.mem_cons.mp h with h2 | h2
      · exact Or.inl h2
      · exact Or.inr (List.mem_cons_of_mem _ h2)
    · rcases List.mem_cons.mp h with h2 | h2
      · exact Or.inr (h2 ▸ List.mem_cons_self _ _)
      · rcases mem_insertKV k v rest kv h2 with h3 | h3
        · exact Or.inl h3
        · exact Or.inr (List.mem_cons_of_mem _ h3)

theorem parseRowsGo_mem (b : Baselines) (headers : List String)
    (P : ControlID × Control → Prop)
    (hrow : ∀ row c, processRow b headers row = some c → c.id.is_empty = false → P (c.id, c)) :
    ∀ (rows : List (List (Option String))) (acc out : List (ControlID × Control)),
      parseRowsGo b headers rows acc = some out →
      (∀ kv ∈ acc, P kv) → ∀ kv ∈ out, P kv
  | [], acc, out, h, hacc => by
    cases h
    exact hacc
  | row :: rest, acc, out, h, hacc => by
    simp only [parseRowsGo] at h
    split at h
    · exact absurd h (by simp)
    next control heq =>
      refine parseRowsGo_mem b headers P hrow rest _ out h ?_
      intro kv hkv
      by_cases he : control.id.is_empty = true
      · rw [if_pos he] at hkv
        exact hacc kv hkv
      · rw [if_neg he] at hkv
        rcases mem_insertKV _ _ _ _ hkv with hkv1 | hkv1
        · rw [hkv1]
          exact hrow row control heq (Bool.not_eq_true _ ▸ he)
        · exact hacc kv hkv1

theorem lookupKV_mem :
    ∀ (l : List (ControlID × Control)) (k : ControlID) (v : Control),
      lookupKV l k = some v → (k, v) ∈ l
  | [], _, _, h => by cases h
  | (k1, v1) :: rest, k, v, h => by
    simp only [lookupKV] at h
    split at h
    next heq =>
      cases h
      rw [← heq]
      exact List.mem_cons_self _ _
    next =>
      exact List.mem_cons_of_mem _ (lookupKV_mem rest k v h)

theorem mapOpt_mem {α β : Type} (f : α → Option β) :
    ∀ (l : List α) (out : List β), mapOpt f l = some out → ∀ y ∈ out, ∃ x ∈ l, f x = some y
  | [], out, h => by
    cases h
    simp
  | x :: xs, out, h => by
    simp only [mapOpt] at h
    split at h
    · exact absurd h (by simp)
    next y0 heq =>
      rcases Option.map_eq_some'.mp h with ⟨ys, hys, rfl⟩
      intro y hy
      rcases List.mem_cons.mp hy with rfl | hy2
      · exact ⟨x, List.mem_cons_self _ _, heq⟩
      · rcases mapOpt_mem f xs ys hys y hy2 with ⟨x1, hx1, hfx1⟩
        exact ⟨x1, List.mem_cons_of_mem _ hx1, hfx1⟩

theorem lookupKV_map_snd (f : Control → Control) :
    ∀ (l : List (ControlID × Control)) (k : ControlID),
      lookupKV (l.map (fun kv => (kv.1, f kv.2))) k = (lookupKV l k).map f
  | [], _ => rfl
  | (k1, v1) :: rest, k => by
    by_cases h : k1 = k
    · simp [lookupKV, h]
    · simp [lookupKV, h, lookupKV_map_snd f rest k]

/-! ## Claim C8 -/

/-- Claim C8: every record stored in the map produced by `Controls::parse`
for baseline `b` has a non-empty identifier, has its parameter slot for `b`
populated (`Some`), and has the other two baseline slots equal to `None`;
rows whose identifier is empty or unparseable are never stored. -/
theorem claim_C8_parse_invariant (sheet : List (List (Option String))) (b : Baselines)
    (cs : Controls) (h : Controls.parse sheet b = some cs) :
    ∀ kv ∈ cs.controls,
      kv.2.id.is_empty = false ∧ (kv.2.parameters.get b).isSome = true ∧
        ∀ b2, b2 ≠ b → kv.2.parameters.get b2 = none := by
  simp only [Controls.parse] at h
  rcases Option.map_eq_some'.mp h with ⟨out, hout, rfl⟩
  exact parseRowsGo_mem b _ _
    (fun row c hc hemp =>
      ⟨hemp, (processRow_shape _ _ _ _ hc).1, (processRow_shape _ _ _ _ hc).2⟩)
    _ [] out hout (by simp)

/-- Claim C8 (witness): the invariant at the record parsed from `exSheet`
(header `ID` = `"AC-2"`, High baseline). -/
theorem claim_C8_witness :
    exEntry.2.id.is_empty = false ∧ (exEntry.2.parameters.get .High).isSome = true ∧
      exEntry.2.parameters.get .Moderate = none :=
  ⟨(claim_C8_parse_invariant exSheet .High exParsed rfl exEntry (by decide)).1,
    (claim_C8_parse_invariant exSheet .High exParsed rfl exEntry (by decide)).2.1,
    (claim_C8_parse_invariant exSheet .High exParsed rfl exEntry (by decide)).2.2 .Moderate
      (by decide)⟩

/-! ## Claim C9 -/

/-- Claim C9: filtering a baseline `b` out of a `Controls` value keeps the
identifier set; each record is replaced by one whose slot for `b` is `None`
while the other two baselines' slots and the narrative fields (id, name,
description, discussion) are unchanged. -/
theorem claim_C9_filter_frame (cs : Controls) (b : Baselines) :
    ((cs.without_baseline b).controls.map Prod.fst = cs.controls.map Prod.fst)
    ∧ (∀ k r, lookupKV cs.controls k = some r →
        lookupKV (cs.without_baseline b).controls k = some (r.without_baseline b))
    ∧ (∀ r : Control,
        (r.without_baseline b).parameters.get b = none
        ∧ (∀ b2, b2 ≠ b → (r.without_baseline b).parameters.get b2 = r.parameters.get b2)
        ∧ (r.without_baseline b).id = r.id
        ∧ (r.without_baseline b).name = r.name
        ∧ (r.without_baseline b).description = r.description
        ∧ (r.without_baseline b).discussion = r.discussion) := by
  refine ⟨?_, ?_, ?_⟩
  · simp [Controls.without_baseline, List.map_map, Function.comp]
  · intro k r hr
    have hmap := lookupKV_map_snd (fun r => r.without_baseline b) cs.controls k
    rw [hr] at hmap
    exact hmap
  · intro r
    exact ⟨get_set_same _ _ _, fun b2 hb2 => get_set_ne _ _ _ _ hb2, rfl, rfl, rfl, rfl⟩

/-- Claim C9 (witness): filtering Low out of the one-record map `exHighMap`
keeps the `AC-1` entry, clears its Low slot and leaves its High slot. -/
theorem claim_C9_witness :
    lookupKV (exHighMap.without_baseline .Low).controls exId
        = some (exHighRec.without_baseline .Low) ∧
      (exHighRec.without_baseline .Low).parameters.get .High
        = exHighRec.parameters.get .High :=
  ⟨(claim_C9_filter_frame exHighMap .Low).2.1 exId exHighRec (by decide),
    ((claim_C9_filter_frame exHighMap .Low).2.2 exHighRec).2.1 .High (by decide)⟩

/-! ## Claim C10 -/

/-- Claim C10: in every `Controls` value produced by sheet parsing, by
merging (whose High input already satisfies the invariant, as the program's
inputs do), or by baseline filtering, every entry's key equals the `id`
field of the record it maps to. -/
theorem claim_C10_key_id_invariant :
    (∀ (sheet : List (List (Option String))) (b : Baselines) (cs : Controls),
        Controls.parse sheet b = some cs → ∀ kv ∈ cs.controls, kv.1 = kv.2.id)
    ∧ (∀ high moderate low merged : Controls, (∀ kv ∈ high.controls, kv.1 = kv.2.id) →
        merge_controls high moderate low = some merged →
        ∀ kv ∈ merged.controls, kv.1 = kv.2.id)
    ∧ (∀ (cs : Controls) (level : Baselines), (∀ kv ∈ cs.controls, kv.1 = kv.2.id) →
        ∀ kv ∈ (cs.without_baseline level).controls, kv.1 = kv.2.id) := by
  refine ⟨?_, ?_, ?_⟩
  · intro sheet b cs h
    simp only [Controls.parse] at h
    rcases Option.map_eq_some'.mp h with ⟨out, hout, rfl⟩
    exact parseRowsGo_mem b _ (fun kv => kv.1 = kv.2.id) (fun row c _ _ => rfl) _ [] out hout
      (by simp)
  · intro high moderate low merged hinv h
    simp only [merge_controls] at h
    rcases Option.map_eq_some'.mp h with ⟨out, hout, rfl⟩
    intro kv hkv
    rcases mapOpt_mem _ _ out hout kv hkv with ⟨id, _, hfx⟩
    rcases Option.map_eq_some'.mp hfx with ⟨c, hc, rfl⟩
    simp only [mergeOne] at hc
    split at hc
    · exact absurd hc (by simp)
    next hrec heq =>
      cases hc
      simpa using hinv (id, hrec) (lookupKV_mem _ _ _ heq)
  · intro cs level hinv kv hkv
    simp only [Controls.without_baseline] at hkv
    rcases List.mem_map.mp hkv with ⟨kv0, hkv0, rfl⟩
    exact hinv kv0 hkv0

/-- Claim C10 (witness): the key/id agreement at the entries of `exParsed`,
`exMerged` and `exFiltered`. -/
theorem claim_C10_witness :
    exEntry.1 = exEntry.2.id ∧ exMergedEntry.1 = exMergedEntry.2.id ∧
      exFilteredEntry.1 = exFilteredEntry.2.id :=
  ⟨claim_C10_key_id_invariant.1 exSheet .High exParsed rfl exEntry (by decide),
    claim_C10_key_id_invariant.2.1 exHighMap exEmptyMap exEmptyMap exMerged (by decide) rfl
      exMergedEntry (by decide),
    claim_C10_key_id_invariant.2.2 exHighMap .Low (by decide) exFilteredEntry (by decide)⟩

end Fedramp
